import Mathlib

/-!
Verification development for the promptify-backend repository.

The repository has two layers:

* a live, in-memory scoreboard kept by the socket server
  (`socketPlayers`, `persistentPlayers`, `playerSessions` maps and the
  `join` / `update_progress` / `disconnect` socket handlers, plus
  `broadcastLeaderboard`);

* a persistence service over Supabase (`gameSessionService`), present in
  two versions in the repo: the round-based version
  (`createSession`/`saveRound1Data`/`saveRound2Data`/`saveRound3Data`/
  `getLeaderboard`/`getSession`/`updateSession`) and the older
  completed-flag version (`createSession`/`updateRoundData`/
  `completeSession`/`getLeaderboard`).

JavaScript `Map` objects are embedded as insertion-ordered association
lists (`Map.set` replaces in place, `Map.delete` removes,
`Array.from(map.values())` lists values in insertion order).
`Array.prototype.sort` is stable per ES2019 and is embedded as a stable
insertion sort.  Supabase calls are embedded as pure state transformers
over a list of rows, with a `configured` flag (`isSupabaseConfigured()`)
and an `ok` flag standing for success of the network/store call.
-/

namespace Promptify

/-! ### Insertion-ordered map (embedding of the JavaScript `Map`) -/

/-- `Map.set k v`: replaces the value in place when the key is present,
otherwise appends the new entry at the end (JS `Map` preserves insertion
order). -/
def mapSet {α β : Type} [DecidableEq α] (k : α) (v : β) :
    List (α × β) → List (α × β)
  | [] => [(k, v)]
  | (k', v') :: rest =>
    if k' = k then (k, v) :: rest else (k', v') :: mapSet k v rest

/-- `Map.get k`: the value stored under `k`, if any. -/
def mapGet {α β : Type} [DecidableEq α] (k : α) : List (α × β) → Option β
  | [] => none
  | (k', v) :: rest => if k' = k then some v else mapGet k rest

/-- `Map.delete k`: removes the entry stored under `k`. -/
def mapDelete {α β : Type} [DecidableEq α] (k : α) :
    List (α × β) → List (α × β)
  | [] => []
  | (k', v) :: rest =>
    if k' = k then mapDelete k rest else (k', v) :: mapDelete k rest

/-- The keys of a map, in order. -/
def mapKeys {α β : Type} (l : List (α × β)) : List α :=
  l.map (fun e => e.1)

theorem mapGet_mapSet_self {α β : Type} [DecidableEq α] (k : α) (v : β)
    (l : List (α × β)) : mapGet k (mapSet k v l) = some v := by
  induction l with
  | nil => simp [mapSet, mapGet]
  | cons e rest ih =>
    by_cases h : e.1 = k
    · simp [mapSet, h, mapGet]
    · simpa [mapSet, h, mapGet] using ih

theorem mapGet_mapSet_ne {α β : Type} [DecidableEq α] (k k' : α) (v : β)
    (l : List (α × β)) (h : k' ≠ k) :
    mapGet k' (mapSet k v l) = mapGet k' l := by
  induction l with
  | nil => simp [mapSet, mapGet, Ne.symm h]
  | cons e rest ih =>
    by_cases he : e.1 = k
    · simp [mapSet, he, mapGet, Ne.symm h]
    · by_cases he' : e.1 = k'
      · simp [mapSet, he, mapGet, he', h]
      · simpa [mapSet, he, mapGet, he'] using ih

theorem mapGet_mapDelete_self {α β : Type} [DecidableEq α] (k : α)
    (l : List (α × β)) : mapGet k (mapDelete k l) = none := by
  induction l with
  | nil => simp [mapDelete, mapGet]
  | cons e rest ih =>
    by_cases h : e.1 = k
    · simpa [mapDelete, h, mapGet] using ih
    · simpa [mapDelete, h, mapGet] using ih

theorem mapGet_mapDelete_ne {α β : Type} [DecidableEq α] (k k' : α)
    (l : List (α × β)) (h : k' ≠ k) :
    mapGet k' (mapDelete k l) = mapGet k' l := by
  induction l with
  | nil => simp [mapDelete, mapGet]
  | cons e rest ih =>
    by_cases he : e.1 = k
    · have he' : e.1 ≠ k' := by rw [he]; exact Ne.symm h
      simpa [mapDelete, he, mapGet, he', Ne.symm h] using ih
    · by_cases he' : e.1 = k'
      · simp [mapDelete, he, mapGet, he', h]
      · simpa [mapDelete, he, mapGet, he'] using ih

theorem mapKeys_mapSet_mem {α β : Type} [DecidableEq α] (k : α) (v : β)
    (l : List (α × β)) (h : k ∈ mapKeys l) :
    mapKeys (mapSet k v l) = mapKeys l := by
  induction l with
  | nil => simp [mapKeys] at h
  | cons e rest ih =>
    by_cases he : e.1 = k
    · simp [mapSet, he, mapKeys]
    · have h' : k ∈ mapKeys rest := by
        simp only [mapKeys, List.map_cons, List.mem_cons] at h
        rcases h with h1 | h1
        · exact absurd h1.symm he
        · exact h1
      have ih' := ih h'
      simp only [mapKeys] at ih'
      simp [mapSet, he, mapKeys, ih']

theorem mapKeys_mapSet_not_mem {α β : Type} [DecidableEq α] (k : α) (v : β)
    (l : List (α × β)) (h : k ∉ mapKeys l) :
    mapKeys (mapSet k v l) = mapKeys l ++ [k] := by
  induction l with
  | nil => simp [mapSet, mapKeys]
  | cons e rest ih =>
    have he : e.1 ≠ k := by
      intro hc
      apply h
      simp only [mapKeys, List.map_cons, List.mem_cons]
      exact Or.inl hc.symm
    have h' : k ∉ mapKeys rest := by
      intro hc
      apply h
      simp only [mapKeys, List.map_cons, List.mem_cons]
      exact Or.inr hc
    have ih' := ih h'
    simp only [mapKeys] at ih'
    simp [mapSet, he, mapKeys, ih']

/-- `Map.set` preserves distinctness of keys. -/
theorem nodup_mapKeys_mapSet {α β : Type} [DecidableEq α] (k : α) (v : β)
    (l : List (α × β)) (h : (mapKeys l).Nodup) :
    (mapKeys (mapSet k v l)).Nodup := by
  by_cases hk : k ∈ mapKeys l
  · rw [mapKeys_mapSet_mem k v l hk]; exact h
  · rw [mapKeys_mapSet_not_mem k v l hk]
    simpa [List.nodup_append] using ⟨h, hk⟩

/-! ### Stable sort (embedding of `Array.prototype.sort`, stable per ES2019) -/

/-- Stable insertion: `x` goes in front of the first element `y` with
`le x y`; on ties (`le` both ways) the earlier element stays first. -/
def insertLe {α : Type} (le : α → α → Bool) (x : α) : List α → List α
  | [] => [x]
  | y :: rest => if le x y then x :: y :: rest else y :: insertLe le x rest

/-- Stable insertion sort by the boolean comparator `le`. -/
def sortLe {α : Type} (le : α → α → Bool) : List α → List α
  | [] => []
  | x :: rest => insertLe le x (sortLe le rest)

theorem insertLe_perm {α : Type} (le : α → α → Bool) (x : α) (l : List α) :
    (insertLe le x l).Perm (x :: l) := by
  induction l with
  | nil => simp [insertLe]
  | cons y rest ih =>
    by_cases h : le x y
    · simp [insertLe, h]
    · simp only [insertLe, if_neg h]
      exact (ih.cons y).trans (List.Perm.swap x y rest)

theorem sortLe_perm {α : Type} (le : α → α → Bool) (l : List α) :
    (sortLe le l).Perm l := by
  induction l with
  | nil => simp [sortLe]
  | cons x rest ih =>
    exact (insertLe_perm le x (sortLe le rest)).trans (ih.cons x)

theorem pairwise_insertLe {α : Type} (le : α → α → Bool)
    (htot : ∀ a b, le a b = true ∨ le b a = true)
    (htrans : ∀ a b c, le a b = true → le b c = true → le a c = true)
    (x : α) (l : List α)
    (h : l.Pairwise (fun a b => le a b = true)) :
    (insertLe le x l).Pairwise (fun a b => le a b = true) := by
  induction l with
  | nil => simp [insertLe]
  | cons y rest ih =>
    rcases List.pairwise_cons.mp h with ⟨hy, hrest⟩
    by_cases hxy : le x y
    · simp only [insertLe, if_pos hxy]
      refine List.pairwise_cons.mpr ⟨?_, h⟩
      intro z hz
      rcases List.mem_cons.mp hz with hz | hz
      · subst hz; exact hxy
      · exact htrans x y z hxy (hy z hz)
    · have hyx : le y x = true := by
        rcases htot x y with h1 | h1
        · exact absurd h1 hxy
        · exact h1
      simp only [insertLe, if_neg hxy]
      refine List.pairwise_cons.mpr ⟨?_, ih hrest⟩
      intro z hz
      rcases List.mem_cons.mp ((insertLe_perm le x rest).mem_iff.mp hz) with
        hz | hz
      · rw [hz]; exact hyx
      · exact hy z hz

theorem pairwise_sortLe {α : Type} (le : α → α → Bool)
    (htot : ∀ a b, le a b = true ∨ le b a = true)
    (htrans : ∀ a b c, le a b = true → le b c = true → le a c = true)
    (l : List α) :
    (sortLe le l).Pairwise (fun a b => le a b = true) := by
  induction l with
  | nil => simp [sortLe]
  | cons x rest ih => exact pairwise_insertLe le htot htrans x (sortLe le rest) ih

/-! ### Live scoreboard layer (socket server)

Game state of the socket server:
`socketPlayers : Map socketId → username`,
`persistentPlayers : Map username → player object`,
`playerSessions : Map username → Supabase session id`. -/

/-- One live player object, as built by the `join` handler:
`\x7b username, avatarUrl, score, status, isBot \x7d`.  `update_progress`
spreads arbitrary client fields over this object; `time` models the
elapsed-time field a client may attach that way (it rides along through
the spread and into the broadcast, but is never consulted by the code). -/
structure Profile where
  username : String
  avatarUrl : Option String
  score : Int
  status : String
  isBot : Bool
  time : Option Int
  deriving DecidableEq, Repr

/-- A leaderboard entry: `\x7b ...p, rank: index + 1 \x7d`. -/
structure RankedProfile extends Profile where
  rank : Nat
  deriving DecidableEq, Repr

/-- The three module-level maps of the socket server. -/
structure LiveState where
  socketPlayers : List (String × String)
  persistentPlayers : List (String × Profile)
  playerSessions : List (String × String)
  deriving DecidableEq, Repr

/-- Fresh server state: all three maps empty. -/
def initLive : LiveState := ⟨[], [], []⟩

/-- JavaScript truthiness of an optional string (`null`/`undefined` and
`""` are falsy). -/
def strTruthy : Option String → Bool
  | none => false
  | some s => s ≠ ""

/-- Comparator of `broadcastLeaderboard`:
`(a, b) => b.score - a.score`, i.e. `a` may precede `b` iff
`b.score ≤ a.score`. -/
def scoreGe (a b : Profile) : Bool := b.score ≤ a.score

/-- `.map((p, index) => (\x7b ...p, rank: index + 1 \x7d))`, with `k` the
rank of the first element. -/
def addRanks : Nat → List Profile → List RankedProfile
  | _, [] => []
  | k, p :: rest => { toProfile := p, rank := k } :: addRanks (k + 1) rest

/-- `broadcastLeaderboard`: sorts the values of `persistentPlayers` with
the comparator `(a, b) => b.score - a.score` (stable) and attaches the
1-based position as `rank`. -/
def broadcastLeaderboard (s : LiveState) : List RankedProfile :=
  addRanks 1 (sortLe scoreGe (s.persistentPlayers.map (fun e => e.2)))

/-- Payload of the `join` socket event (`userData`). -/
structure JoinData where
  username : String
  avatarUrl : Option String
  apiKey : Option String
  deriving DecidableEq, Repr

/-- The player object after the first half of the `join` handler: the
existing player for the name, or the fresh
`\x7b username, avatarUrl, score: 0, status: "Just Joined",
isBot: false \x7d`; then
`if (userData.avatarUrl) player.avatarUrl = userData.avatarUrl`. -/
def joinProfile (s : LiveState) (d : JoinData) : Profile :=
  let player :=
    (mapGet d.username s.persistentPlayers).getD
      { username := d.username, avatarUrl := d.avatarUrl, score := 0,
        status := "Just Joined", isBot := false, time := none }
  if strTruthy d.avatarUrl then { player with avatarUrl := d.avatarUrl }
  else player

/-- The `join` handler.  `newSid` is the id of the Supabase session the
handler would create for a first-time name (`createSession` result).
Returns the new state and the session id sent in `session_created`. -/
def join (s : LiveState) (connId : String) (d : JoinData) (newSid : String) :
    LiveState × String :=
  let pp := mapSet d.username (joinProfile s d) s.persistentPlayers
  let sp := mapSet connId d.username s.socketPlayers
  match mapGet d.username s.playerSessions with
  | none =>
    ({ socketPlayers := sp, persistentPlayers := pp,
       playerSessions := mapSet d.username newSid s.playerSessions }, newSid)
  | some sid =>
    ({ socketPlayers := sp, persistentPlayers := pp,
       playerSessions := s.playerSessions }, sid)

/-- Payload of the `update_progress` event: the partial player fields a
client may send (each field absent or present; present fields overwrite
via the object spread `\x7b ...player, ...data \x7d`). -/
structure ProgressData where
  score : Option Int
  status : Option String
  avatarUrl : Option String
  time : Option Int
  deriving DecidableEq, Repr

/-- The object spread `\x7b ...player, ...data \x7d`. -/
def mergeProfile (p : Profile) (d : ProgressData) : Profile :=
  { p with
    score := d.score.getD p.score
    status := d.status.getD p.status
    avatarUrl := d.avatarUrl.or p.avatarUrl
    time := d.time.or p.time }

/-- The `update_progress` handler: resolve the socket to a player key;
the guard is JS truthiness — `if (playerKey)` — so a binding to the
empty display name skips the whole block; when the key is truthy and
the player exists, spread the payload over the player. -/
def updateProgress (s : LiveState) (connId : String) (d : ProgressData) :
    LiveState :=
  match mapGet connId s.socketPlayers with
  | none => s
  | some playerKey =>
    if strTruthy (some playerKey) then
      match mapGet playerKey s.persistentPlayers with
      | none => s
      | some player =>
        { s with persistentPlayers :=
            mapSet playerKey (mergeProfile player d) s.persistentPlayers }
    else s

/-- The `disconnect` handler: the guard is JS truthiness —
`if (playerKey)` — so a binding to the empty display name is left in
place; when the bound key is truthy, delete only this socket's entry
from `socketPlayers`. -/
def disconnect (s : LiveState) (connId : String) : LiveState :=
  match mapGet connId s.socketPlayers with
  | none => s
  | some playerKey =>
    if strTruthy (some playerKey) then
      { s with socketPlayers := mapDelete connId s.socketPlayers }
    else s

/-- One `join` event: connection id, payload, and the session id the
persistence call would mint for a first join of that name. -/
def applyJoin (s : LiveState) (e : String × JoinData × String) : LiveState :=
  (join s e.1 e.2.1 e.2.2).1

/-- State of the live maps after a sequence of `join` events from server
start. -/
def runJoins (es : List (String × JoinData × String)) : LiveState :=
  es.foldl applyJoin initLive

/-! ### Persistence layer (`gameSessionService` over Supabase)

A Supabase table is embedded as a list of rows; `update(...).eq('id', sid)`
maps the update over the rows with matching id.  `isSupabaseConfigured()`
is the `configured` flag; the success of each network call is the `ok`
flag; `Date.now()` is the `now` argument and the UUID minted by an insert
is the `newId` argument. -/

/-- One element of a round payload array, covering both payload shapes
(`subRoundId`/`targetPhrase`/... and `targetContent`/...). -/
structure RoundItem where
  subRoundId : Option String := none
  targetPhrase : Option String := none
  targetContent : Option String := none
  prompt : String := ""
  output : String := ""
  score : Int := 0
  timeTaken : Int := 0
  deriving DecidableEq, Repr

/-- A round payload as stored in a `roundN_data` column. -/
abbrev RoundPayload := List RoundItem

/-- One row of the `game_sessions` table, with the columns used by either
service version (missing values are `none`/defaults). -/
structure SessionRecord where
  id : String
  player_name : String
  avatar_url : Option String := none
  api_key_hash : Option String := none
  round1_data : RoundPayload := []
  round2_data : RoundPayload := []
  round3_data : RoundPayload := []
  round1_prompts : List String := []
  round1_outputs : List String := []
  round1_scores : List Int := []
  round2_prompts : List String := []
  round2_outputs : List String := []
  round3_prompts : List String := []
  round3_outputs : List String := []
  round1_score : Option Int := none
  round2_score : Option Int := none
  round3_score : Option Int := none
  round1_time : Option Int := none
  round2_time : Option Int := none
  round3_time : Option Int := none
  total_score : Int := 0
  total_time : Option Int := none
  rounds_completed : Nat := 0
  current_round : Nat := 1
  status : String := "Playing"
  completed : Bool := false
  created_at : Nat := 0
  deriving DecidableEq, Repr

/-- The `game_sessions` table. -/
abbrev Store := List SessionRecord

/-- `sessionId.startsWith('local-')`, on the character lists of the
strings (`String.startsWith` itself does not reduce in the kernel). -/
def isLocalId (sid : String) : Bool := "local-".data.isPrefixOf sid.data

/-- `.update(f).eq('id', sid)`: apply `f` to every row whose id is
`sid`. -/
def updateRows (sid : String) (f : SessionRecord → SessionRecord)
    (db : Store) : Store :=
  db.map (fun r => if r.id = sid then f r else r)

/-- `.select('*').eq('id', sid).single()`: first row with the given id. -/
def findById (sid : String) : Store → Option SessionRecord
  | [] => none
  | r :: rest => if r.id = sid then some r else findById sid rest

/-- `nullsFirst: false` ascending order on the nullable `total_time`
column: nulls sort last. -/
def timeLe : Option Int → Option Int → Bool
  | some x, some y => x ≤ y
  | some _, none => true
  | none, some _ => false
  | none, none => true

/-- Leaderboard row order of both persisted queries:
`total_score` descending, ties broken by `total_time` ascending with
nulls last. -/
def lbLe (a b : SessionRecord) : Bool :=
  decide (b.total_score < a.total_score) ||
    (decide (a.total_score = b.total_score) && timeLe a.total_time b.total_time)

/-- The generated placeholder avatar of the round-based `createSession`:
the dicebear bottts URL seeded with the player name. -/
def dicebearUrl (name : String) : String :=
  "https://api.dicebear.com/7.x/bottts/svg?seed=" ++ name

/-- The local placeholder session of the round-based service:
`\x7b id: local-<Date.now()>, player_name \x7d`. -/
def localSession (now : Nat) (playerName : String) : SessionRecord :=
  { id := "local-" ++ toString now, player_name := playerName }

/- Round-based version of `gameSessionService` (the one behind the
round1/round2/round3 REST endpoints). -/
namespace GameSessionService

/-- `createSession(playerName, avatarUrl)`: insert a fresh "Playing" row
whose avatar defaults to the dicebear placeholder when `avatarUrl` is
falsy; when Supabase is not configured or the insert fails, return the
`local-` placeholder instead and leave the table alone. -/
def createSession (configured ok : Bool) (now : Nat) (newId : String)
    (db : Store) (playerName : String) (avatarUrl : Option String) :
    SessionRecord × Store :=
  if !configured then (localSession now playerName, db)
  else if ok then
    let r : SessionRecord :=
      { id := newId, player_name := playerName,
        avatar_url :=
          some (if strTruthy avatarUrl then avatarUrl.getD ""
                else dicebearUrl playerName),
        total_score := 0, rounds_completed := 0, current_round := 1,
        status := "Playing",
        round1_data := [], round2_data := [], round3_data := [] }
    (r, db ++ [r])
  else (localSession now playerName, db)

/-- `updateSession(sessionId, updates)`: skipped (returning `null`) when
not configured or the id is a local placeholder; otherwise applies the
field patch to the matching row and returns it. -/
def updateSession (configured ok : Bool) (db : Store) (sessionId : String)
    (updates : SessionRecord → SessionRecord) :
    Option SessionRecord × Store :=
  if !configured || isLocalId sessionId then (none, db)
  else if ok then
    let db' := updateRows sessionId updates db
    (findById sessionId db', db')
  else (none, db)

/-- `saveRound1Data(sessionId, subRoundsData, totalScore, totalTime)`. -/
def saveRound1Data (configured ok : Bool) (db : Store) (sessionId : String)
    (subRoundsData : RoundPayload) (totalScore totalTime : Int) :
    Bool × Store :=
  if !configured || isLocalId sessionId then (false, db)
  else if ok then
    (true,
     updateRows sessionId
       (fun r =>
         { r with round1_data := subRoundsData,
                  round1_score := some totalScore,
                  round1_time := some totalTime,
                  total_score := totalScore,
                  rounds_completed := 1,
                  current_round := 2,
                  status := "Round 2" }) db)
  else (false, db)

/-- `saveRound2Data(sessionId, roundData, roundScore, roundTime,
previousTotalScore)`. -/
def saveRound2Data (configured ok : Bool) (db : Store) (sessionId : String)
    (roundData : RoundPayload) (roundScore roundTime previousTotalScore : Int) :
    Bool × Store :=
  if !configured || isLocalId sessionId then (false, db)
  else if ok then
    (true,
     updateRows sessionId
       (fun r =>
         { r with round2_data := roundData,
                  round2_score := some roundScore,
                  round2_time := some roundTime,
                  total_score := previousTotalScore + roundScore,
                  rounds_completed := 2,
                  current_round := 3,
                  status := "Round 3" }) db)
  else (false, db)

/-- `saveRound3Data(sessionId, roundData, roundScore, roundTime,
previousTotalScore, totalGameTime)`. -/
def saveRound3Data (configured ok : Bool) (db : Store) (sessionId : String)
    (roundData : RoundPayload)
    (roundScore roundTime previousTotalScore totalGameTime : Int) :
    Bool × Store :=
  if !configured || isLocalId sessionId then (false, db)
  else if ok then
    (true,
     updateRows sessionId
       (fun r =>
         { r with round3_data := roundData,
                  round3_score := some roundScore,
                  round3_time := some roundTime,
                  total_score := previousTotalScore + roundScore,
                  total_time := some totalGameTime,
                  rounds_completed := 3,
                  current_round := 3,
                  status := "Finished" }) db)
  else (false, db)

/-- `getLeaderboard(limit)`: all rows (no status filter) ordered by
`total_score` descending then `total_time` ascending (nulls last),
truncated to `limit`. -/
def getLeaderboard (configured ok : Bool) (db : Store) (limit : Nat) :
    List SessionRecord :=
  if !configured then []
  else if ok then (sortLe lbLe db).take limit
  else []

/-- `getSession(sessionId)`. -/
def getSession (configured ok : Bool) (db : Store) (sessionId : String) :
    Option SessionRecord :=
  if !configured || isLocalId sessionId then none
  else if ok then findById sessionId db
  else none

end GameSessionService

/- Older, completed-flag version of `gameSessionService` (the one behind
the socket server and the `rounds/:roundNumber` / `complete` REST
endpoints). -/
namespace GameSessionServiceV1

/-- `createSession(playerName, apiKey)`: insert a row holding the player
name and the hashed API key; fall back to the `local-` placeholder when
not configured or on failure.  The hash itself is kept opaque. -/
def createSession (configured ok : Bool) (now : Nat) (newId : String)
    (keyHash : Option String) (db : Store) (playerName : String) :
    SessionRecord × Store :=
  if !configured then (localSession now playerName, db)
  else if ok then
    let r : SessionRecord :=
      { id := newId, player_name := playerName, api_key_hash := keyHash }
    (r, db ++ [r])
  else (localSession now playerName, db)

/-- Input of `updateRoundData`: the partial round payload sent by the
caller (`prompts`/`outputs`/`scores`/`score`/`timeTaken`, each with a
`|| default`). -/
structure RoundDataIn where
  prompts : Option (List String) := none
  outputs : Option (List String) := none
  scores : Option (List Int) := none
  score : Option Int := none
  timeTaken : Option Int := none
  deriving DecidableEq, Repr

/-- The per-round field patch built by `updateRoundData`. -/
def roundPatch (roundNumber : Nat) (d : RoundDataIn)
    (r : SessionRecord) : SessionRecord :=
  if roundNumber = 1 then
    { r with round1_prompts := d.prompts.getD [],
             round1_outputs := d.outputs.getD [],
             round1_scores := d.scores.getD [],
             round1_time := some (d.timeTaken.getD 0) }
  else if roundNumber = 2 then
    { r with round2_prompts := d.prompts.getD [],
             round2_outputs := d.outputs.getD [],
             round2_score := some (d.score.getD 0),
             round2_time := some (d.timeTaken.getD 0) }
  else if roundNumber = 3 then
    { r with round3_prompts := d.prompts.getD [],
             round3_outputs := d.outputs.getD [],
             round3_score := some (d.score.getD 0),
             round3_time := some (d.timeTaken.getD 0) }
  else r

/-- `updateRoundData(sessionId, roundNumber, roundData)`. -/
def updateRoundData (configured ok : Bool) (db : Store) (sessionId : String)
    (roundNumber : Nat) (d : RoundDataIn) : Option SessionRecord × Store :=
  if !configured || isLocalId sessionId then (none, db)
  else if ok then
    let db' := updateRows sessionId (roundPatch roundNumber d) db
    (findById sessionId db', db')
  else (none, db)

/-- Input of `completeSession`: `\x7b totalScore, totalTime \x7d`. -/
structure FinalData where
  totalScore : Option Int := none
  totalTime : Option Int := none
  deriving DecidableEq, Repr

/-- `completeSession(sessionId, finalData)`: set the final totals and the
`completed` flag. -/
def completeSession (configured ok : Bool) (db : Store) (sessionId : String)
    (finalData : FinalData) : Option SessionRecord × Store :=
  if !configured || isLocalId sessionId then (none, db)
  else if ok then
    let db' := updateRows sessionId
      (fun r =>
        { r with total_score := finalData.totalScore.getD 0,
                 total_time := some (finalData.totalTime.getD 0),
                 completed := true }) db
    (findById sessionId db', db')
  else (none, db)

/-- The projected row returned by this version's leaderboard query
(`select('player_name, total_score, total_time, created_at')`). -/
structure LBRow where
  player_name : String
  total_score : Int
  total_time : Option Int
  created_at : Nat
  deriving DecidableEq, Repr

/-- Projection of a session row onto the selected leaderboard columns. -/
def toRow (r : SessionRecord) : LBRow :=
  { player_name := r.player_name, total_score := r.total_score,
    total_time := r.total_time, created_at := r.created_at }

/-- `getLeaderboard(limit)`: rows with `completed = true`, ordered by
`total_score` descending then `total_time` ascending, truncated to
`limit`, projected onto the selected columns. -/
def getLeaderboard (configured ok : Bool) (db : Store) (limit : Nat) :
    List LBRow :=
  if !configured then []
  else if ok then
    ((sortLe lbLe (db.filter (fun r => r.completed))).take limit).map toRow
  else []

end GameSessionServiceV1

/-! ### Supporting lemmas -/

theorem join_persistentPlayers (s : LiveState) (c : String) (d : JoinData)
    (nsid : String) :
    (join s c d nsid).1.persistentPlayers =
      mapSet d.username (joinProfile s d) s.persistentPlayers := by
  cases h : mapGet d.username s.playerSessions <;> simp [join, h]

theorem join_socketPlayers (s : LiveState) (c : String) (d : JoinData)
    (nsid : String) :
    (join s c d nsid).1.socketPlayers = mapSet c d.username s.socketPlayers := by
  cases h : mapGet d.username s.playerSessions <;> simp [join, h]

theorem joinProfile_existing (s : LiveState) (d : JoinData) (p : Profile)
    (h : mapGet d.username s.persistentPlayers = some p) :
    joinProfile s d =
      if strTruthy d.avatarUrl then { p with avatarUrl := d.avatarUrl }
      else p := by
  simp [joinProfile, h]

theorem joinProfile_score (s : LiveState) (d : JoinData) (p : Profile)
    (h : mapGet d.username s.persistentPlayers = some p) :
    (joinProfile s d).score = p.score := by
  rw [joinProfile_existing s d p h]
  by_cases hb : strTruthy d.avatarUrl <;> simp [hb]

theorem nodup_keys_applyJoin (s : LiveState)
    (e : String × JoinData × String)
    (h : (mapKeys s.persistentPlayers).Nodup) :
    (mapKeys (applyJoin s e).persistentPlayers).Nodup := by
  unfold applyJoin
  rw [join_persistentPlayers]
  exact nodup_mapKeys_mapSet _ _ _ h

theorem nodup_keys_foldl_joins (es : List (String × JoinData × String))
    (s : LiveState) (h : (mapKeys s.persistentPlayers).Nodup) :
    (mapKeys (es.foldl applyJoin s).persistentPlayers).Nodup := by
  induction es generalizing s with
  | nil => exact h
  | cons e rest ih => exact ih (applyJoin s e) (nodup_keys_applyJoin s e h)

theorem findById_updateRows_self (sid : String)
    (f : SessionRecord → SessionRecord) (db : Store)
    (hf : ∀ r, (f r).id = r.id) :
    findById sid (updateRows sid f db) = (findById sid db).map f := by
  induction db with
  | nil => simp [updateRows, findById]
  | cons r rest ih =>
    by_cases h : r.id = sid
    · simp [updateRows, findById, h, hf r]
    · simpa [updateRows, findById, h] using ih

theorem timeLe_total (a b : Option Int) : timeLe a b = true ∨ timeLe b a = true := by
  cases a <;> cases b <;> simp [timeLe]
  omega

theorem timeLe_trans (a b c : Option Int) (h1 : timeLe a b = true)
    (h2 : timeLe b c = true) : timeLe a c = true := by
  cases a <;> cases b <;> cases c <;> simp [timeLe] at *
  omega

theorem lbLe_total (a b : SessionRecord) : lbLe a b = true ∨ lbLe b a = true := by
  simp only [lbLe, Bool.or_eq_true, Bool.and_eq_true, decide_eq_true_eq]
  rcases lt_trichotomy a.total_score b.total_score with h | h | h
  · right; left; exact h
  · rcases timeLe_total a.total_time b.total_time with ht | ht
    · left; right; exact ⟨h, ht⟩
    · right; right; exact ⟨h.symm, ht⟩
  · left; left; exact h

theorem lbLe_trans (a b c : SessionRecord) (h1 : lbLe a b = true)
    (h2 : lbLe b c = true) : lbLe a c = true := by
  simp only [lbLe, Bool.or_eq_true, Bool.and_eq_true, decide_eq_true_eq] at *
  rcases h1 with h1 | ⟨h1, h1t⟩ <;> rcases h2 with h2 | ⟨h2, h2t⟩
  · left; omega
  · left; omega
  · left; omega
  · right; exact ⟨by omega, timeLe_trans _ _ _ h1t h2t⟩

theorem scoreGe_total (a b : Profile) : scoreGe a b = true ∨ scoreGe b a = true := by
  simp [scoreGe]; omega

theorem scoreGe_trans (a b c : Profile) (h1 : scoreGe a b = true)
    (h2 : scoreGe b c = true) : scoreGe a c = true := by
  simp [scoreGe] at *; omega

theorem addRanks_map_rank (l : List Profile) (k : Nat) :
    (addRanks k l).map (fun e => e.rank) = List.range' k l.length := by
  induction l generalizing k with
  | nil => simp [addRanks, List.range']
  | cons p rest ih => simp [addRanks, List.range', ih]

theorem addRanks_map_profile (l : List Profile) (k : Nat) :
    (addRanks k l).map (fun e => e.toProfile) = l := by
  induction l generalizing k with
  | nil => simp [addRanks]
  | cons p rest ih => simp [addRanks, ih]

/-- Rows surviving the sort and the truncation come from the original
table. -/
theorem mem_of_mem_sortLe_take {α : Type} (le : α → α → Bool) (l : List α)
    (n : Nat) (x : α) (h : x ∈ (sortLe le l).take n) : x ∈ l :=
  (sortLe_perm le l).mem_iff.mp (List.take_subset n (sortLe le l) h)

theorem addRanks_length (l : List Profile) (k : Nat) :
    (addRanks k l).length = l.length := by
  induction l generalizing k with
  | nil => simp [addRanks]
  | cons p rest ih => simp [addRanks, ih]

/-! ### Claim statements -/

/-- The ordering the spec claims for the live broadcast: score descending
with ties broken by ascending elapsed time. -/
def liveTieOrder (a b : RankedProfile) : Bool :=
  decide (b.score < a.score) ||
    (decide (a.score = b.score) && timeLe a.time b.time)

/-- Position of a status in the progression
"Playing" → "Round 2" → "Round 3" → "Finished". -/
def statusRank : String → Nat
  | "Round 2" => 1
  | "Round 3" => 2
  | "Finished" => 3
  | _ => 0

/-- A live state with two score-tied players whose insertion order
disagrees with their elapsed times: alice (joined first) took 5000 ms,
bob took 1000 ms, both at score 10. -/
def tieState : LiveState :=
  { socketPlayers := [], playerSessions := [],
    persistentPlayers :=
      [("alice",
        { username := "alice", avatarUrl := none, score := 10,
          status := "Playing", isBot := false, time := some 5000 }),
       ("bob",
        { username := "bob", avatarUrl := none, score := 10,
          status := "Playing", isBot := false, time := some 1000 })] }

/-- C1, as stated, fails: with two players tied at score 10, the player
with the larger elapsed time (alice, 5000 ms) is broadcast ahead of the
one with the smaller elapsed time (bob, 1000 ms), because the comparator
`(a, b) => b.score - a.score` never consults a time field.  The broadcast
is not sorted with the claimed tie-break. -/
theorem broadcastLeaderboard_tiebreak_cex :
    ¬ (broadcastLeaderboard tieState).Pairwise
        (fun a b => liveTieOrder a b = true) := by decide

/-- C1 (amended): the leaderboard sequence broadcast by
`broadcastLeaderboard` is sorted by score descending — ties are left in
map insertion order (the stable sort's comparator uses only `score`),
not broken by elapsed time — and each entry's rank equals its 1-based
position, so ranks are contiguous from 1. -/
theorem broadcastLeaderboard_sorted_ranked (s : LiveState) :
    (broadcastLeaderboard s).Pairwise
      (fun a b => scoreGe a.toProfile b.toProfile = true) ∧
    (broadcastLeaderboard s).map (fun e => e.rank) =
      List.range' 1 (broadcastLeaderboard s).length := by
  constructor
  · have hp := pairwise_sortLe scoreGe scoreGe_total scoreGe_trans
      (s.persistentPlayers.map (fun e => e.2))
    have hmap : (broadcastLeaderboard s).map (fun e => e.toProfile) =
        sortLe scoreGe (s.persistentPlayers.map (fun e => e.2)) :=
      addRanks_map_profile _ 1
    exact List.pairwise_map.mp (by rw [hmap]; exact hp)
  · unfold broadcastLeaderboard
    rw [addRanks_map_rank, addRanks_length]

/-- C2: the scoreboard holds at most one profile per display name over
any sequence of join events; a join with a known name merges into the
existing profile — the avatar is overwritten only when a truthy
`avatarUrl` is provided, and score and status are preserved (the record
update touches no other field); the session id minted at the first join
for a name is stored once and every later join with that name reuses it
and leaves the session map unchanged. -/
theorem join_unique_merge_reuse :
    (∀ es, (mapKeys (runJoins es).persistentPlayers).Nodup) ∧
    (∀ s c d nsid p, mapGet d.username s.persistentPlayers = some p →
       mapGet d.username ((join s c d nsid).1.persistentPlayers) =
         some (if strTruthy d.avatarUrl then { p with avatarUrl := d.avatarUrl }
               else p)) ∧
    (∀ s c d nsid sid, mapGet d.username s.playerSessions = some sid →
       (join s c d nsid).2 = sid ∧
       (join s c d nsid).1.playerSessions = s.playerSessions) ∧
    (∀ s c d nsid, mapGet d.username s.playerSessions = none →
       (join s c d nsid).2 = nsid ∧
       mapGet d.username ((join s c d nsid).1.playerSessions) = some nsid) := by
  refine ⟨?_, ?_, ?_, ?_⟩
  · intro es
    exact nodup_keys_foldl_joins es initLive (by simp [initLive, mapKeys])
  · intro s c d nsid p h
    rw [join_persistentPlayers, mapGet_mapSet_self,
      joinProfile_existing s d p h]
  · intro s c d nsid sid h
    simp [join, h]
  · intro s c d nsid h
    simp [join, h, mapGet_mapSet_self]

/-- Witness for C2: joining twice as "alice" (second time with an
avatar) merges rather than duplicates, and the second join reuses the
session id stored by the first. -/
theorem join_unique_merge_reuse_witness :
    (mapGet "alice"
        ((join tieState "c7"
            { username := "alice", avatarUrl := some "http://a.png",
              apiKey := none } "sid9").1.persistentPlayers) =
      some { username := "alice", avatarUrl := some "http://a.png",
             score := 10, status := "Playing", isBot := false,
             time := some 5000 }) ∧
    ((join tieState "c7"
        { username := "alice", avatarUrl := none, apiKey := none }
        "sid9").2 = "sid9") := by
  constructor
  · exact join_unique_merge_reuse.2.1 tieState "c7"
      { username := "alice", avatarUrl := some "http://a.png",
        apiKey := none } "sid9"
      { username := "alice", avatarUrl := none, score := 10,
        status := "Playing", isBot := false, time := some 5000 }
      (by decide)
  · exact (join_unique_merge_reuse.2.2.2 tieState "c7"
      { username := "alice", avatarUrl := none, apiKey := none }
      "sid9" (by decide)).1

/-- A state with one connection bound to the empty display name — the
binding a `join` with `username: ""` creates — together with a profile
for the empty name. -/
def emptyNameState : LiveState :=
  { socketPlayers := [("c1", "")],
    persistentPlayers :=
      [("", { username := "", avatarUrl := none, score := 0,
              status := "Just Joined", isBot := false, time := none })],
    playerSessions := [] }

/-- C6, as stated, fails: the handler's guard is JS truthiness, not
presence.  For a connection bound to the empty display name (reachable
by a `join` with `username: ""`), the bound connection's binding is NOT
removed on disconnect — the whole state is returned unchanged. -/
theorem disconnect_empty_binding_cex :
    mapGet "c1" emptyNameState.socketPlayers = some "" ∧
    disconnect emptyNameState "c1" = emptyNameState ∧
    mapGet "c1" (disconnect emptyNameState "c1").socketPlayers = some "" := by
  decide

/-- C6 (amended): a disconnect on a connection bound to a truthy
(non-empty) display name removes exactly that connection's binding —
the bound player's profile (score and status included), every other
player's profile, the whole profile map, other connections' bindings,
and the session-id map are unchanged — and a later join under the same
name resumes with the prior score.  (A binding to the empty name is
skipped by the `if (playerKey)` truthiness guard and left in place.) -/
theorem disconnect_removes_only_binding (s : LiveState) (c key : String)
    (h : mapGet c s.socketPlayers = some key) (hk : key ≠ "") :
    (disconnect s c).persistentPlayers = s.persistentPlayers ∧
    (disconnect s c).playerSessions = s.playerSessions ∧
    mapGet c (disconnect s c).socketPlayers = none ∧
    (∀ c2, c2 ≠ c →
      mapGet c2 (disconnect s c).socketPlayers = mapGet c2 s.socketPlayers) ∧
    (∀ p d c3 nsid, mapGet key s.persistentPlayers = some p →
      d.username = key →
      (mapGet key
          ((join (disconnect s c) c3 d nsid).1.persistentPlayers)).map
        (fun q => q.score) = some p.score) := by
  refine ⟨by simp [disconnect, h, strTruthy, hk],
    by simp [disconnect, h, strTruthy, hk], ?_, ?_, ?_⟩
  · simp [disconnect, h, strTruthy, hk, mapGet_mapDelete_self]
  · intro c2 hc2
    simp [disconnect, h, strTruthy, hk, mapGet_mapDelete_ne c c2 _ hc2]
  · intro p d c3 nsid hp hd
    have hpp : (disconnect s c).persistentPlayers = s.persistentPlayers := by
      simp [disconnect, h, strTruthy, hk]
    have hp' : mapGet d.username (disconnect s c).persistentPlayers = some p := by
      rw [hpp, hd]; exact hp
    rw [join_persistentPlayers, ← hd, mapGet_mapSet_self]
    simp [joinProfile_score _ _ _ hp']

/-- Witness for C6: disconnecting bob's connection in a two-connection
state only drops that binding and a re-join keeps his score. -/
theorem disconnect_removes_only_binding_witness :
    (disconnect
        { tieState with
          socketPlayers := [("c1", "alice"), ("c2", "bob")] }
        "c2").persistentPlayers = tieState.persistentPlayers ∧
    mapGet "c2"
      (disconnect
        { tieState with
          socketPlayers := [("c1", "alice"), ("c2", "bob")] }
        "c2").socketPlayers = none := by
  have h := disconnect_removes_only_binding
    { tieState with socketPlayers := [("c1", "alice"), ("c2", "bob")] }
    "c2" "bob" (by decide) (by decide)
  exact ⟨h.1, h.2.2.1⟩

/-- C8, as stated, fails: the handler's guard is JS truthiness, not
presence.  For a connection bound to the empty display name, whose
profile exists and whose score the payload would raise to 99, the code
skips the whole block — no merge happens and the state is returned
unchanged, although the connection is bound. -/
theorem updateProgress_empty_binding_cex :
    mapGet "c1" emptyNameState.socketPlayers = some "" ∧
    ((mapGet "" emptyNameState.persistentPlayers).map
      (fun p => (mergeProfile p
        { score := some 99, status := none, avatarUrl := none,
          time := none }).score) = some 99) ∧
    updateProgress emptyNameState "c1"
        { score := some 99, status := none, avatarUrl := none,
          time := none } = emptyNameState ∧
    ((mapGet "" (updateProgress emptyNameState "c1"
        { score := some 99, status := none, avatarUrl := none,
          time := none }).persistentPlayers).map (fun p => p.score) =
      some 0) := by decide

/-- C8 (amended): an `update_progress` event is a no-op (the whole
state, scoreboard included, returned unchanged, not an error) when the
connection is unbound — and likewise when it is bound to the empty
display name, which the `if (playerKey)` truthiness guard skips; on a
connection bound to a truthy name whose profile exists, the partial
fields are spread over that player's existing profile, and the binding
and session maps are untouched. -/
theorem updateProgress_noop_or_merge :
    (∀ s c d, mapGet c s.socketPlayers = none → updateProgress s c d = s) ∧
    (∀ s c d, mapGet c s.socketPlayers = some "" →
       updateProgress s c d = s) ∧
    (∀ s c d key p, mapGet c s.socketPlayers = some key → key ≠ "" →
       mapGet key s.persistentPlayers = some p →
       (updateProgress s c d).socketPlayers = s.socketPlayers ∧
       (updateProgress s c d).playerSessions = s.playerSessions ∧
       (updateProgress s c d).persistentPlayers =
         mapSet key (mergeProfile p d) s.persistentPlayers) := by
  refine ⟨?_, ?_, ?_⟩
  · intro s c d h
    simp [updateProgress, h]
  · intro s c d h
    simp [updateProgress, h, strTruthy]
  · intro s c d key p hb hk hp
    refine ⟨?_, ?_, ?_⟩ <;> simp [updateProgress, hb, strTruthy, hk, hp]

/-- Witness for C8: a progress event from an unknown connection leaves
the state alone; from a bound one it merges the score into bob's
profile. -/
theorem updateProgress_noop_or_merge_witness :
    (updateProgress tieState "ghost"
        { score := some 99, status := none, avatarUrl := none,
          time := none } = tieState) ∧
    (updateProgress
        { tieState with socketPlayers := [("c2", "bob")] } "c2"
        { score := some 99, status := none, avatarUrl := none,
          time := none }).persistentPlayers =
      mapSet "bob"
        (mergeProfile
          { username := "bob", avatarUrl := none, score := 10,
            status := "Playing", isBot := false, time := some 1000 }
          { score := some 99, status := none, avatarUrl := none,
            time := none })
        tieState.persistentPlayers := by
  constructor
  · exact updateProgress_noop_or_merge.1 tieState "ghost"
      { score := some 99, status := none, avatarUrl := none, time := none }
      (by decide)
  · exact (updateProgress_noop_or_merge.2.2
      { tieState with socketPlayers := [("c2", "bob")] } "c2"
      { score := some 99, status := none, avatarUrl := none, time := none }
      "bob"
      { username := "bob", avatarUrl := none, score := 10,
        status := "Playing", isBot := false, time := some 1000 }
      (by decide) (by decide) (by decide)).2.2

theorem isLocalId_append (s : String) : isLocalId ("local-" ++ s) = true := by
  simp [isLocalId, String.data_append]

/-- C3, as stated, fails: a round-save never inspects the current
status.  On a session already "Finished", `saveRound1Data` succeeds and
moves the status backwards to "Round 2"; nothing is rejected or
reordered. -/
theorem saveRound_forward_only_cex :
    ((GameSessionService.saveRound1Data true true
        [{ id := "s1", player_name := "alice", status := "Finished" }]
        "s1" [] 10 5000).1 = true) ∧
    ((GameSessionService.saveRound1Data true true
        [{ id := "s1", player_name := "alice", status := "Finished" }]
        "s1" [] 10 5000).2.map (fun r => r.status) = ["Round 2"]) ∧
    statusRank "Round 2" < statusRank "Finished" := by decide

/-- C3 (amended): round-save operations are status-oblivious overwrites.
When Supabase is configured, the id is not a local placeholder and the
store call succeeds, `saveRound1Data` / `saveRound2Data` /
`saveRound3Data` report success and set the session's status to the
fixed value "Round 2" / "Round 3" / "Finished" respectively, whatever
the status was before — so the status can move backwards, and a save for
a later round before the earlier rounds are complete is accepted, not
rejected. -/
theorem saveRound_overwrites_status (db : Store) (sid : String)
    (r : SessionRecord) (pay : RoundPayload) (a b c g : Int)
    (hl : isLocalId sid = false) (hr : findById sid db = some r) :
    ((GameSessionService.saveRound1Data true true db sid pay a b).1 = true ∧
     (findById sid
         (GameSessionService.saveRound1Data true true db sid pay a b).2).map
       (fun q => q.status) = some "Round 2") ∧
    ((GameSessionService.saveRound2Data true true db sid pay a b c).1 = true ∧
     (findById sid
         (GameSessionService.saveRound2Data true true db sid pay a b c).2).map
       (fun q => q.status) = some "Round 3") ∧
    ((GameSessionService.saveRound3Data true true db sid pay a b c g).1 = true ∧
     (findById sid
         (GameSessionService.saveRound3Data true true db sid pay a b c g).2).map
       (fun q => q.status) = some "Finished") := by
  have h1 := findById_updateRows_self sid
    (fun q => { q with round1_data := pay, round1_score := some a,
                       round1_time := some b, total_score := a,
                       rounds_completed := 1, current_round := 2,
                       status := "Round 2" }) db (fun q => rfl)
  have h2 := findById_updateRows_self sid
    (fun q => { q with round2_data := pay, round2_score := some a,
                       round2_time := some b, total_score := c + a,
                       rounds_completed := 2, current_round := 3,
                       status := "Round 3" }) db (fun q => rfl)
  have h3 := findById_updateRows_self sid
    (fun q => { q with round3_data := pay, round3_score := some a,
                       round3_time := some b, total_score := c + a,
                       total_time := some g, rounds_completed := 3,
                       current_round := 3,
                       status := "Finished" }) db (fun q => rfl)
  refine ⟨⟨?_, ?_⟩, ⟨?_, ?_⟩, ⟨?_, ?_⟩⟩ <;>
    simp [GameSessionService.saveRound1Data,
      GameSessionService.saveRound2Data,
      GameSessionService.saveRound3Data, hl, h1, h2, h3, hr]

/-- Witness for C3 (amended): on a store holding a "Finished" session,
each save succeeds and stamps its fixed status. -/
theorem saveRound_overwrites_status_witness :
    (GameSessionService.saveRound1Data true true
        [{ id := "s1", player_name := "alice", status := "Finished" }]
        "s1" [] 10 5000).1 = true ∧
    (findById "s1"
        (GameSessionService.saveRound2Data true true
          [{ id := "s1", player_name := "alice", status := "Finished" }]
          "s1" [] 7 8 9).2).map (fun q => q.status) = some "Round 3" := by
  have h := saveRound_overwrites_status
    [{ id := "s1", player_name := "alice", status := "Finished" }] "s1"
    { id := "s1", player_name := "alice", status := "Finished" }
    [] 10 5000 9 9 (by decide) (by decide)
  have h2 := saveRound_overwrites_status
    [{ id := "s1", player_name := "alice", status := "Finished" }] "s1"
    { id := "s1", player_name := "alice", status := "Finished" }
    [] 7 8 9 9 (by decide) (by decide)
  exact ⟨h.1.1, h2.2.1.2⟩

/-- C4: on a configured, non-local session present in the store, a
successful `saveRound1Data(sid, pay1, s1, t1)` sets status "Round 2",
`rounds_completed` 1 and `total_score` s1; a subsequent successful
`saveRound2Data(sid, pay2, s2, t2, prev)` sets `total_score` to
`prev + s2` and status "Round 3". -/
theorem saveRound1_then_saveRound2 (db : Store) (sid : String)
    (r : SessionRecord) (pay1 pay2 : RoundPayload) (s1 t1 s2 t2 prev : Int)
    (hl : isLocalId sid = false) (hr : findById sid db = some r) :
    (GameSessionService.saveRound1Data true true db sid pay1 s1 t1).1 = true ∧
    (findById sid
        (GameSessionService.saveRound1Data true true db sid pay1 s1 t1).2).map
      (fun q => (q.status, q.rounds_completed, q.total_score)) =
      some ("Round 2", 1, s1) ∧
    (GameSessionService.saveRound2Data true true
        (GameSessionService.saveRound1Data true true db sid pay1 s1 t1).2
        sid pay2 s2 t2 prev).1 = true ∧
    (findById sid
        (GameSessionService.saveRound2Data true true
          (GameSessionService.saveRound1Data true true db sid pay1 s1 t1).2
          sid pay2 s2 t2 prev).2).map
      (fun q => (q.status, q.total_score)) = some ("Round 3", prev + s2) := by
  have h1 := findById_updateRows_self sid
    (fun q => { q with round1_data := pay1, round1_score := some s1,
                       round1_time := some t1, total_score := s1,
                       rounds_completed := 1, current_round := 2,
                       status := "Round 2" }) db (fun q => rfl)
  have h2 := findById_updateRows_self sid
    (fun q => { q with round2_data := pay2, round2_score := some s2,
                       round2_time := some t2, total_score := prev + s2,
                       rounds_completed := 2, current_round := 3,
                       status := "Round 3" })
    (updateRows sid
      (fun q => { q with round1_data := pay1, round1_score := some s1,
                         round1_time := some t1, total_score := s1,
                         rounds_completed := 1, current_round := 2,
                         status := "Round 2" }) db) (fun q => rfl)
  refine ⟨?_, ?_, ?_, ?_⟩ <;>
    simp [GameSessionService.saveRound1Data,
      GameSessionService.saveRound2Data, hl, h1, h2, hr]

/-- Witness for C4: the spec's own example run — a fresh session, round 1
saved with score 10, then round 2 with score 15 and previous total 10,
ending at total 25 and status "Round 3". -/
theorem saveRound1_then_saveRound2_witness :
    (findById "s1"
        (GameSessionService.saveRound2Data true true
          (GameSessionService.saveRound1Data true true
            [{ id := "s1", player_name := "alice" }] "s1" [] 10 5000).2
          "s1" [] 15 3000 10).2).map
      (fun q => (q.status, q.total_score)) = some ("Round 3", 10 + 15) :=
  (saveRound1_then_saveRound2 [{ id := "s1", player_name := "alice" }]
    "s1" { id := "s1", player_name := "alice" } [] [] 10 5000 15 3000 10
    (by decide) (by decide)).2.2.2

/-- The leaderboard row order on the projected columns of the older
service's query. -/
def lbRowLe (a b : GameSessionServiceV1.LBRow) : Bool :=
  decide (b.total_score < a.total_score) ||
    (decide (a.total_score = b.total_score) &&
      timeLe a.total_time b.total_time)

theorem lbRowLe_toRow (a b : SessionRecord) :
    lbRowLe (GameSessionServiceV1.toRow a) (GameSessionServiceV1.toRow b) =
      lbLe a b := rfl

/-- C5, as stated, fails: the round-based service's `getLeaderboard`
has no status filter at all — a session still in status "Playing" is
returned on the persisted leaderboard. -/
theorem getLeaderboard_unfinished_cex :
    ¬ (∀ x ∈ GameSessionService.getLeaderboard true true
          [{ id := "s1", player_name := "alice", total_score := 5,
             status := "Playing" }] 50,
        x.status = "Finished") := by decide

/-- C5 (amended): both persisted leaderboard queries return at most
`limit` rows ordered by `total_score` descending with ties broken by
`total_time` ascending; the older (completed-flag) service additionally
returns only rows of completed sessions, while the round-based service
applies no status filter — every returned row is merely some row of the
table, of any status. -/
theorem getLeaderboard_order_limit (cfg ok : Bool) (db : Store) (limit : Nat) :
    ((GameSessionService.getLeaderboard cfg ok db limit).length ≤ limit ∧
     (GameSessionService.getLeaderboard cfg ok db limit).Pairwise
       (fun a b => lbLe a b = true) ∧
     (∀ x ∈ GameSessionService.getLeaderboard cfg ok db limit, x ∈ db)) ∧
    ((GameSessionServiceV1.getLeaderboard cfg ok db limit).length ≤ limit ∧
     (GameSessionServiceV1.getLeaderboard cfg ok db limit).Pairwise
       (fun a b => lbRowLe a b = true) ∧
     (∀ row ∈ GameSessionServiceV1.getLeaderboard cfg ok db limit,
        ∃ s, s ∈ db ∧ s.completed = true ∧
          GameSessionServiceV1.toRow s = row)) := by
  constructor
  · cases cfg with
    | false => simp [GameSessionService.getLeaderboard]
    | true =>
      cases ok with
      | false => simp [GameSessionService.getLeaderboard]
      | true =>
        refine ⟨?_, ?_, ?_⟩
        · simp only [GameSessionService.getLeaderboard, Bool.not_true,
            Bool.false_eq_true, if_false, if_true]
          rw [List.length_take]
          exact min_le_left _ _
        · simp only [GameSessionService.getLeaderboard, Bool.not_true,
            Bool.false_eq_true, if_false, if_true]
          exact List.Pairwise.sublist (List.take_sublist _ _)
            (pairwise_sortLe lbLe lbLe_total lbLe_trans db)
        · intro x hx
          simp only [GameSessionService.getLeaderboard, Bool.not_true,
            Bool.false_eq_true, if_false, if_true] at hx
          exact mem_of_mem_sortLe_take lbLe db limit x hx
  · cases cfg with
    | false => simp [GameSessionServiceV1.getLeaderboard]
    | true =>
      cases ok with
      | false => simp [GameSessionServiceV1.getLeaderboard]
      | true =>
        refine ⟨?_, ?_, ?_⟩
        · simp only [GameSessionServiceV1.getLeaderboard, Bool.not_true,
            Bool.false_eq_true, if_false, if_true]
          rw [List.length_map, List.length_take]
          exact min_le_left _ _
        · simp only [GameSessionServiceV1.getLeaderboard, Bool.not_true,
            Bool.false_eq_true, if_false, if_true]
          refine List.pairwise_map.mpr ?_
          have := List.Pairwise.sublist (List.take_sublist limit _)
            (pairwise_sortLe lbLe lbLe_total lbLe_trans
              (db.filter (fun r => r.completed)))
          exact this.imp (fun h => by rw [lbRowLe_toRow]; exact h)
        · intro row hrow
          simp only [GameSessionServiceV1.getLeaderboard, Bool.not_true,
            Bool.false_eq_true, if_false, if_true] at hrow
          rcases List.mem_map.mp hrow with ⟨s, hs, hseq⟩
          have hs' := mem_of_mem_sortLe_take lbLe _ limit s hs
          rcases List.mem_filter.mp hs' with ⟨hmem, hcomp⟩
          exact ⟨s, hmem, hcomp, hseq⟩

/-- Witness for C5 (amended): on a two-row table with one completed and
one playing session, a row of the older service's leaderboard is traced
back to a completed source row. -/
theorem getLeaderboard_order_limit_witness :
    ∃ s, s ∈ ([{ id := "s1", player_name := "alice", total_score := 5,
                  status := "Playing" },
                { id := "s2", player_name := "bob", total_score := 3,
                  status := "Finished", completed := true }] : Store) ∧
      s.completed = true ∧
      GameSessionServiceV1.toRow s =
        { player_name := "bob", total_score := 3, total_time := none,
          created_at := 0 } :=
  (getLeaderboard_order_limit true true
      [{ id := "s1", player_name := "alice", total_score := 5,
         status := "Playing" },
       { id := "s2", player_name := "bob", total_score := 3,
         status := "Finished", completed := true }] 10).2.2.2
    { player_name := "bob", total_score := 3, total_time := none,
      created_at := 0 } (by decide)

/-- C7: when Supabase is not configured or the insert fails, both
versions of `createSession` return (never throw) a placeholder session
whose id is "local-" followed by the timestamp — a `local-`-prefixed
id — carrying the player's name, and leave the table untouched. -/
theorem createSession_local_fallback (cfg ok : Bool) (now : Nat)
    (newId : String) (kh avatar : Option String) (db : Store)
    (name : String) (h : cfg = false ∨ ok = false) :
    ((GameSessionService.createSession cfg ok now newId db name avatar).1.id =
        "local-" ++ toString now ∧
     isLocalId
        (GameSessionService.createSession cfg ok now newId db name avatar).1.id
        = true ∧
     (GameSessionService.createSession cfg ok now newId db name
        avatar).1.player_name = name ∧
     (GameSessionService.createSession cfg ok now newId db name avatar).2 =
        db) ∧
    ((GameSessionServiceV1.createSession cfg ok now newId kh db name).1.id =
        "local-" ++ toString now ∧
     isLocalId
        (GameSessionServiceV1.createSession cfg ok now newId kh db name).1.id
        = true ∧
     (GameSessionServiceV1.createSession cfg ok now newId kh db
        name).1.player_name = name ∧
     (GameSessionServiceV1.createSession cfg ok now newId kh db name).2 =
        db) := by
  rcases h with h | h
  · subst h
    simp [GameSessionService.createSession,
      GameSessionServiceV1.createSession, localSession, isLocalId_append]
  · subst h
    cases cfg <;>
      simp [GameSessionService.createSession,
        GameSessionServiceV1.createSession, localSession, isLocalId_append]

/-- Witness for C7: with Supabase unconfigured, `createSession` for
"alice" yields a usable `local-` placeholder and no table change. -/
theorem createSession_local_fallback_witness :
    (GameSessionService.createSession false true 42 "u1" [] "alice"
        none).1.id = "local-" ++ toString 42 ∧
    (GameSessionServiceV1.createSession false true 42 "u1" none []
        "alice").1.player_name = "alice" := by
  have h := createSession_local_fallback false true 42 "u1" none none []
    "alice" (Or.inl rfl)
  exact ⟨h.1.1, h.2.2.2.1⟩

/-- C9, as stated, fails: a `join` with no avatar leaves the created
live PlayerProfile's avatar empty (`null`), not a generated placeholder
— the dicebear URL seeded with the name is nowhere on the live path. -/
theorem live_avatar_default_cex :
    ((mapGet "alice"
        ((join initLive "c1"
            { username := "alice", avatarUrl := none, apiKey := none }
            "sid1").1.persistentPlayers)).map (fun p => p.avatarUrl) =
      some none) ∧
    ((mapGet "alice"
        ((join initLive "c1"
            { username := "alice", avatarUrl := none, apiKey := none }
            "sid1").1.persistentPlayers)).map (fun p => p.avatarUrl) ≠
      some (some (dicebearUrl "alice"))) := by decide

/-- C9 (amended): the deterministic placeholder keyed by the player's
name exists only on the persisted path — the round-based
`createSession` with a falsy avatar stores the dicebear URL seeded with
the name (which textually contains the name as its suffix) — while the
live profile created by a `join` without avatar keeps `null`. -/
theorem avatar_placeholder_persisted_only :
    (∀ now newId db name,
       (GameSessionService.createSession true true now newId db name
           none).1.avatar_url = some (dicebearUrl name)) ∧
    (∀ name, dicebearUrl name =
       "https://api.dicebear.com/7.x/bottts/svg?seed=" ++ name) ∧
    (∀ s c name nsid, mapGet name s.persistentPlayers = none →
       (mapGet name
           ((join s c { username := name, avatarUrl := none, apiKey := none }
              nsid).1.persistentPlayers)).map (fun p => p.avatarUrl) =
         some none) := by
  refine ⟨?_, fun name => rfl, ?_⟩
  · intro now newId db name
    simp [GameSessionService.createSession, strTruthy]
  · intro s c name nsid h
    rw [join_persistentPlayers, mapGet_mapSet_self]
    simp [joinProfile, h, strTruthy]

/-- Witness for C9 (amended): creating a persisted session for "alice"
with no avatar stores the dicebear URL, and a live join for a fresh
"alice" stores no avatar. -/
theorem avatar_placeholder_persisted_only_witness :
    (GameSessionService.createSession true true 42 "u1" [] "alice"
        none).1.avatar_url = some (dicebearUrl "alice") ∧
    (mapGet "alice"
        ((join initLive "c9"
            { username := "alice", avatarUrl := none, apiKey := none }
            "sid1").1.persistentPlayers)).map (fun p => p.avatarUrl) =
      some none :=
  ⟨avatar_placeholder_persisted_only.1 42 "u1" [] "alice",
   avatar_placeholder_persisted_only.2.2 initLive "c9" "alice" "sid1"
     (by decide)⟩

/-- C10: every persistence operation that takes a session id
short-circuits on a `local-`-prefixed id: it leaves the table untouched
and returns its failure/absent sentinel (`null` for
updateSession/getSession/updateRoundData/completeSession, `false` for
the round saves) — in particular a placeholder session can never be
fetched back. -/
theorem localId_short_circuit (sid : String) (h : isLocalId sid = true) :
    (∀ cfg ok db upd,
       GameSessionService.updateSession cfg ok db sid upd = (none, db)) ∧
    (∀ cfg ok db, GameSessionService.getSession cfg ok db sid = none) ∧
    (∀ cfg ok db pay a b,
       GameSessionService.saveRound1Data cfg ok db sid pay a b =
         (false, db)) ∧
    (∀ cfg ok db pay a b c,
       GameSessionService.saveRound2Data cfg ok db sid pay a b c =
         (false, db)) ∧
    (∀ cfg ok db pay a b c g,
       GameSessionService.saveRound3Data cfg ok db sid pay a b c g =
         (false, db)) ∧
    (∀ cfg ok db n d,
       GameSessionServiceV1.updateRoundData cfg ok db sid n d =
         (none, db)) ∧
    (∀ cfg ok db fd,
       GameSessionServiceV1.completeSession cfg ok db sid fd =
         (none, db)) := by
  refine ⟨?_, ?_, ?_, ?_, ?_, ?_, ?_⟩ <;> intro cfg <;> intros <;>
    simp [GameSessionService.updateSession, GameSessionService.getSession,
      GameSessionService.saveRound1Data, GameSessionService.saveRound2Data,
      GameSessionService.saveRound3Data,
      GameSessionServiceV1.updateRoundData,
      GameSessionServiceV1.completeSession, h]

/-- Witness for C10: a `local-` placeholder id is never saved or fetched
— `getSession` reports not-found and a round save fails without touching
the store. -/
theorem localId_short_circuit_witness :
    GameSessionService.getSession true true
        [{ id := "s1", player_name := "alice" }] "local-42" = none ∧
    GameSessionService.saveRound1Data true true
        [{ id := "s1", player_name := "alice" }] "local-42" [] 10 5 =
      (false, [{ id := "s1", player_name := "alice" }]) := by
  have h := localId_short_circuit "local-42" (by decide)
  exact ⟨h.2.1 true true [{ id := "s1", player_name := "alice" }],
    h.2.2.1 true true [{ id := "s1", player_name := "alice" }] [] 10 5⟩

end Promptify
